import Mathlib

/-
Verification development for the cothority skipchain / omniledger core.

The Go sources embedded here:
  * omniledger/service/struct.go : collectionDB (storeInColl, Store, tryHash),
    state changes, and the contract test fixtures (panicContractFunc,
    dummyContractFunc, invalidContractFunc).
  * the skipchain service : ProposeSkipBlock, updateNewSkipBlock,
    GetUpdateChain, verifyNewSkipBlock.

Code of the repository that is not in the source extract (the merkle
collection library, the bolt store, the SkipBlock common structure and its
hash, the darc engine, the transaction executor) is modelled from the spec;
each such definition carries a doc comment starting with
Modelled from the spec.

Bytes are modelled as List Nat.  Error strings of the Go code are replaced
by the enumeration CErr; the original message texts are noted in comments.
-/

/-- Error outcomes of the embedded operations.  Each constructor stands for
one concrete Go error value or message. -/
inductive CErr where
  /-- collection add: the key already holds a record (key collision). -/
  | keyExists : CErr
  /-- collection set or remove: no record under the key. -/
  | keyAbsent : CErr
  /-- storeInColl default branch: invalid state action. -/
  | invalidAction : CErr
  /-- skipchain: the message was, Couldnt find latest block / skipblock. -/
  | notFound : CErr
  /-- GetUpdateChain: the message was, Missing block in forward-chain. -/
  | missingBlock : CErr
  /-- ProposeSkipBlock: the message was, Verification of proposed block failed. -/
  | verifyFailed : CErr
  /-- fuel exhaustion of the loop embedding (the Go loop would not return). -/
  | outOfFuel : CErr
  /-- the bolt Update transaction failed. -/
  | dbFail : CErr
deriving DecidableEq

/-- Instance key: 32 bytes in the implementation. -/
abbrev CKey := List Nat

/-- A collection record: (value, contract id, darc id). -/
abbrev CEntry := List Nat × List Nat × List Nat

/-- Modelled from the spec: the AuthenticatedCollection is a logical map
from instance id to (value, contract-id, darc-id).  We represent it as the
insertion-ordered association list of its records; the merkle structure is
abstracted away and only the root (a canonical form of the entry set) is
kept. -/
abbrev Coll := List (CKey × CEntry)

/-- Does the collection hold a record under key k. -/
def keyIn (k : CKey) (c : Coll) : Bool :=
  c.any (fun p => p.1 == k)

/-- Modelled from the spec: collection Add stores a new record and errors
on a key collision (add and set are distinct operations, section 4.1). -/
def Collection.Add (c : Coll) (k : CKey) (e : CEntry) : Except CErr Coll :=
  if keyIn k c then .error .keyExists else .ok (c ++ [(k, e)])

/-- Modelled from the spec: collection Set replaces the record under an
existing key and errors when the key is absent. -/
def Collection.Set (c : Coll) (k : CKey) (e : CEntry) : Except CErr Coll :=
  if keyIn k c then .ok (c.map (fun p => if p.1 = k then (k, e) else p))
  else .error .keyAbsent

/-- Modelled from the spec: collection Remove deletes the record under an
existing key and errors when the key is absent. -/
def Collection.Remove (c : Coll) (k : CKey) : Except CErr Coll :=
  if keyIn k c then .ok (c.filter (fun p => !(p.1 == k)))
  else .error .keyAbsent

/-- Byte-wise lexicographic comparison on keys, used for the canonical
order of the merkle leaves. -/
def keyLe : List Nat → List Nat → Bool
  | [], _ => true
  | _ :: _, [] => false
  | a :: as, b :: bs => a < b || (a == b && keyLe as bs)

/-- Insert one record into a key-sorted list of records. -/
def insertSorted (e : CKey × CEntry) : Coll → Coll
  | [] => [e]
  | x :: xs => if keyLe e.1 x.1 then e :: x :: xs else x :: insertSorted e xs

/-- Modelled from the spec: the merkle root is deterministic over the set
of entries (section 4.1), so we take the key-sorted entry list as the
root value. -/
def Collection.GetRoot (c : Coll) : Coll :=
  c.foldr insertSorted []

/-- The state actions of omniledger (struct.go). -/
inductive StateAction where
  | Create : StateAction
  | Update : StateAction
  | Remove : StateAction
deriving DecidableEq

/-- A StateChange of omniledger (struct.go): action, instance id, value,
contract id and darc id. -/
structure StateChange where
  stateAction : StateAction
  instanceID : List Nat
  value : List Nat
  contractID : List Nat
  darcID : List Nat
deriving DecidableEq

/-- storeInColl of struct.go: Create adds, Update sets, Remove removes.
The default branch (invalid state action) cannot arise for the typed
action. -/
def storeInColl (coll : Coll) (t : StateChange) : Except CErr Coll :=
  match t.stateAction with
  | StateAction.Create => Collection.Add coll t.instanceID (t.value, t.contractID, t.darcID)
  | StateAction.Update => Collection.Set coll t.instanceID (t.value, t.contractID, t.darcID)
  | StateAction.Remove => Collection.Remove coll t.instanceID

/-- Apply a list of state changes in order through storeInColl, stopping
at the first error. -/
def applyAll : Coll → List StateChange → Except CErr Coll
  | c, [] => .ok c
  | c, sc :: rest =>
    match storeInColl c sc with
    | .error e => .error e
    | .ok c2 => applyAll c2 rest

/-- tryHash of struct.go.  For every state change it Adds the pair
(regardless of the state action), computes the root once the loop is done,
and undoes the additions through deferred Removes running newest first.
The deferred removes are rendered by recursion: the removal registered for
the head change runs after the whole tail was processed and rolled back.
A failing Add aborts the loop; a failing deferred Remove overwrites the
returned error and drops the root, exactly as the Go named returns do.
Returns the result together with the collection left behind. -/
def tryHash : Coll → List StateChange → Except CErr Coll × Coll
  | c, [] => (.ok (Collection.GetRoot c), c)
  | c, sc :: rest =>
    match Collection.Add c sc.instanceID (sc.value, sc.contractID, sc.darcID) with
    | .error e => (.error e, c)
    | .ok c2 =>
      match tryHash c2 rest with
      | (res, c3) =>
        match Collection.Remove c3 sc.instanceID with
        | .error e2 => (.error e2, c3)
        | .ok c4 => (res, c4)

/-- Modelled from the spec: one bolt bucket, a flat byte-keyed map. -/
abbrev Bucket := List (List Nat × List Nat)

/-- Modelled from the spec: bolt Put, replace or append. -/
def bucketPut : Bucket → List Nat → List Nat → Bucket
  | [], k, v => [(k, v)]
  | (k2, v2) :: rest, k, v =>
    if k2 = k then (k, v) :: rest else (k2, v2) :: bucketPut rest k v

/-- Modelled from the spec: bolt Delete, removing the key when present. -/
def bucketDelete : Bucket → List Nat → Bucket
  | [], _ => []
  | (k2, v2) :: rest, k =>
    if k2 = k then bucketDelete rest k else (k2, v2) :: bucketDelete rest k

/-- The collectionDB of struct.go: the in-memory collection plus its
bucket in the bolt store. -/
structure collectionDB where
  coll : Coll
  bucket : Bucket
deriving DecidableEq

/-- The body of the bolt Update closure in Store of struct.go: the three
pieces of data are stored under sibling keys with leading bytes 0, 1, 2;
Remove deletes the three keys.  bolt Put and Delete do not fail on these
inputs, so the closure is total here; its default branch (invalid state
action) cannot arise for the typed action. -/
def storeTx (b : Bucket) (sc : StateChange) : Bucket :=
  match sc.stateAction with
  | StateAction.Create =>
    bucketPut (bucketPut (bucketPut b (0 :: sc.instanceID) sc.value)
      (1 :: sc.instanceID) sc.contractID) (2 :: sc.instanceID) sc.darcID
  | StateAction.Update =>
    bucketPut (bucketPut (bucketPut b (0 :: sc.instanceID) sc.value)
      (1 :: sc.instanceID) sc.contractID) (2 :: sc.instanceID) sc.darcID
  | StateAction.Remove =>
    bucketDelete (bucketDelete (bucketDelete b (0 :: sc.instanceID))
      (1 :: sc.instanceID)) (2 :: sc.instanceID)

/-- Store of struct.go: first mutate the in-memory collection through
storeInColl, then write the entry in one atomic bolt Update.  The flag
dbFail is the failure oracle for the atomic write: when it is set the
bolt transaction aborts (the bucket is untouched) and Store returns the
error.  Note that the Go code performs no rollback of the in-memory
collection in that case; the model mirrors this. -/
def Store (cdb : collectionDB) (sc : StateChange) (dbFail : Bool) :
    Option CErr × collectionDB :=
  match storeInColl cdb.coll sc with
  | .error e => (some e, cdb)
  | .ok coll2 =>
    if dbFail then (some .dbFail, { coll := coll2, bucket := cdb.bucket })
    else (none, { coll := coll2, bucket := storeTx cdb.bucket sc })

/-- An instruction, reduced to the fields the embedded contracts read:
the instance id, the contract id resolved for it (for a Spawn this is
Spawn.ContractID), and the first argument value. -/
structure Instruction where
  instanceID : List Nat
  contractID : List Nat
  value : List Nat
deriving DecidableEq

/-- Outcome of one contract invocation: returned state changes, an error,
or a panic of the contract function. -/
inductive ContractOutcome where
  | ok : List StateChange → ContractOutcome
  | err : ContractOutcome
  | panics : ContractOutcome

/-- An omniledger contract: a function of the read-only collection view
and the instruction. -/
abbrev ContractFn := Coll → Instruction → ContractOutcome

/-- The contract registry: contract id to contract function. -/
abbrev ContractRegistry := List (List Nat × ContractFn)

/-- Look a contract up in the registry. -/
def regLookup (reg : ContractRegistry) (cid : List Nat) : Option ContractFn :=
  (reg.find? (fun p => p.1 == cid)).map (fun p => p.2)

/-- panicContractFunc of struct.go: it panics whatever the input is. -/
def panicContractFunc : ContractFn :=
  fun _ _ => .panics

/-- invalidContractFunc of struct.go: it always returns an error. -/
def invalidContractFunc : ContractFn :=
  fun _ _ => .err

/-- dummyContractFunc of struct.go: it returns the single state change
NewStateChange(Create, inst.InstanceID, cid, args) with an empty darc id. -/
def dummyContractFunc : ContractFn :=
  fun _ inst =>
    .ok [{ stateAction := .Create, instanceID := inst.instanceID,
           value := inst.value, contractID := inst.contractID, darcID := [] }]

/-- A client transaction: its ordered instructions. -/
abbrev Tx := List Instruction

/-- Modelled from the spec: the per-transaction execution step of the
TransactionExecutor (section 4.6), which is not part of the source
extract.  Each instruction resolves its contract, runs it, and applies
the returned changes tentatively; a missing contract, a contract error,
a contract panic (caught by the executor, section 7) or a failing apply
rejects the whole transaction, returning none, so the caller keeps the
state from before the transaction. -/
def executeTx (reg : ContractRegistry) : Coll → Tx → Option Coll
  | c, [] => some c
  | c, inst :: rest =>
    match regLookup reg inst.contractID with
    | none => none
    | some f =>
      match f c inst with
      | .panics => none
      | .err => none
      | .ok scs =>
        match applyAll c scs with
        | .error _ => none
        | .ok c2 => executeTx reg c2 rest

/-- Modelled from the spec: createStateChanges of the TransactionExecutor
(section 4.6), not part of the source extract.  It folds the transactions
in order over the snapshot; a rejected transaction leaves the snapshot at
its pre-transaction state and is flagged false, an accepted one commits
its tentative changes and is flagged true.  Returns the final snapshot
and the acceptance flags in transaction order. -/
def createStateChanges (reg : ContractRegistry) : Coll → List Tx → Coll × List Bool
  | c, [] => (c, [])
  | c, tx :: rest =>
    match executeTx reg c tx with
    | none =>
      let r := createStateChanges reg c rest
      (r.1, false :: r.2)
    | some c2 =>
      let r := createStateChanges reg c2 rest
      (r.1, true :: r.2)

/-- Modelled from the spec: the darc rule expressions, a small boolean
language over signer identities with AND and OR (section 4.4). -/
inductive DarcExpr where
  | sid : Nat → DarcExpr
  | conj : DarcExpr → DarcExpr → DarcExpr
  | disj : DarcExpr → DarcExpr → DarcExpr
deriving DecidableEq

/-- Modelled from the spec: evaluate a rule expression against the set of
identities whose signatures over the request verified (the signature
check itself is black-box crypto, section 1). -/
def evalExpr (signers : List Nat) : DarcExpr → Bool
  | .sid x => signers.contains x
  | .conj a b => evalExpr signers a && evalExpr signers b
  | .disj a b => evalExpr signers a || evalExpr signers b

/-- Length-prefixed encoding of a rule expression, for hashing. -/
def exprEnc : DarcExpr → List Nat
  | .sid x => [0, x]
  | .conj a b => 1 :: (exprEnc a ++ exprEnc b)
  | .disj a b => 2 :: (exprEnc a ++ exprEnc b)

/-- Modelled from the spec: a darc, reduced to the fields the evolution
rule reads: version, base id, hash of the previous version, the evolve
rule expression, and the remaining payload. -/
structure Darc where
  version : Nat
  baseId : List Nat
  prevHash : List Nat
  evolveRule : DarcExpr
  payload : List Nat
deriving DecidableEq

/-- Modelled from the spec: the darc hash over canonical, length-prefixed
field encodings (section 6). -/
def darcHash (d : Darc) : List Nat :=
  [d.version] ++ (d.baseId.length :: d.baseId) ++ (d.prevHash.length :: d.prevHash)
    ++ exprEnc d.evolveRule ++ (d.payload.length :: d.payload)

/-- Modelled from the spec: the acceptance test of a darc evolution
(section 4.4): version increment by one, prev-hash chaining, stable base
id, and the evolve rule of the old darc satisfied by the verified
signers of the new darc. -/
def darcEvolveOk (old new : Darc) (signers : List Nat) : Bool :=
  (new.version == old.version + 1) && (new.prevHash == darcHash old)
    && (new.baseId == old.baseId) && evalExpr signers old.evolveRule

/-- Modelled from the spec: the stored darc after an evolution request:
the new darc when the request is accepted, otherwise the stored darc is
unchanged (scenario S5). -/
def darcEvolve (old new : Darc) (signers : List Nat) : Darc :=
  if darcEvolveOk old new signers then new else old

/-- A forward link of a skipblock.  NewBlockLink of the skipchain package
is not in the source extract; modelled from the spec, it carries the hash
of the successor and the collective signature, which ProposeSkipBlock
never fills in (the sign-off is a TODO in the source), rendered by the
flag signatureOk. -/
structure BlockLink where
  hash : List Nat
  signatureOk : Bool
deriving DecidableEq

/-- NewBlockLink followed by setting the Hash field, as updateNewSkipBlock
does: no collective signature is attached. -/
def NewBlockLink (h : List Nat) : BlockLink :=
  { hash := h, signatureOk := false }

/-- The common fields of a SkipBlock.  The SkipBlockCommon structure is
not in the source extract; modelled from the spec (section 3): index,
height, verifier id, backlinks, forwardlinks and the opaque payload. -/
structure SkipBlockC where
  index : Nat
  height : Nat
  verifierId : Nat
  backLink : List (List Nat)
  forwardLink : List BlockLink
  data : List Nat
deriving DecidableEq

/-- The VerifyNone verifier id accepted by verifyNewSkipBlock. -/
def VerifyNone : Nat := 0

/-- Modelled from the spec: the block hash covers all fields except the
forwardlinks (section 3), concatenated in declared order with lengths
prefixed (section 6). -/
def updateHash (b : SkipBlockC) : List Nat :=
  [b.index, b.verifierId, b.backLink.length]
    ++ b.backLink.flatMap (fun l => l.length :: l)
    ++ (b.data.length :: b.data)

/-- The SkipBlocks map of the skipchain Service: block id to block.  The
Go map from the stringified id is an association list here. -/
abbrev ServiceState := List (List Nat × SkipBlockC)

/-- Go map read s.SkipBlocks[string(id)]. -/
def lookupBlock : ServiceState → List Nat → Option SkipBlockC
  | [], _ => none
  | (k2, b2) :: rest, k => if k2 = k then some b2 else lookupBlock rest k

/-- Go map write s.SkipBlocks[string(id)] = b: replace or append. -/
def mapInsert : ServiceState → List Nat → SkipBlockC → ServiceState
  | [], k, b => [(k, b)]
  | (k2, b2) :: rest, k, b =>
    if k2 = k then (k, b) :: rest else (k2, b2) :: mapInsert rest k b

/-- verifyNewSkipBlock of the skipchain service: the proposed block is
accepted exactly when its verifier id is VerifyNone (the verification
protocols are a TODO in the source). -/
def verifyNewSkipBlock (_latest newest : SkipBlockC) : Bool :=
  newest.verifierId == VerifyNone

/-- updateNewSkipBlock of the skipchain service.  Height is always set to
one and the backlink list has the single entry: for a genesis block a
random 32-byte value (the rand argument stands for the crypto/rand
bytes), otherwise the hash of the previous block.  The genesis path
increments the index of the proposed block; the other path sets it to the
previous index plus one and overwrites the forward link of the previous
block (which the Go code mutates in place inside the map) with the single
unsigned link to the new block.  The new block is stored under its
recomputed hash. -/
def updateNewSkipBlock (s : ServiceState) (prev : Option (List Nat × SkipBlockC))
    (proposed : SkipBlockC) (rand : List Nat) : ServiceState × SkipBlockC :=
  match prev with
  | none =>
    let nb := { proposed with height := 1, index := proposed.index + 1, backLink := [rand] }
    (mapInsert s (updateHash nb) nb, nb)
  | some (pk, p) =>
    let nb := { proposed with height := 1, index := p.index + 1, backLink := [updateHash p] }
    let p2 := { p with forwardLink := [NewBlockLink (updateHash nb)] }
    (mapInsert (mapInsert s pk p2) (updateHash nb) nb, nb)

/-- The reply of ProposeSkipBlock: previous block (none for genesis) and
the stored latest block. -/
structure ProposedSkipBlockReply where
  previous : Option SkipBlockC
  latest : SkipBlockC
deriving DecidableEq

/-- The genesis branch of ProposeSkipBlock: the verifier id is forced to
VerifyNone, the block is stored through updateNewSkipBlock with no
previous block, and the reply carries previous = none. -/
def proposeGenesisBlock (s : ServiceState) (proposed : SkipBlockC) (rand : List Nat) :
    ProposedSkipBlockReply × ServiceState :=
  let pr := { proposed with verifierId := VerifyNone }
  let r := updateNewSkipBlock s none pr rand
  ({ previous := none, latest := r.2 }, r.1)

/-- ProposeSkipBlock of the skipchain service.  A nil or empty latest id
takes the genesis branch unconditionally (the source performs no check
that the store is empty, despite its own doc comment).  Otherwise the
previous block is looked up, the verifier id is copied from it, and the
block is stored when verifyNewSkipBlock accepts it.  The propagation to
the other services has no effect on the local block map and its ignored
error is not modelled. -/
def ProposeSkipBlock (s : ServiceState) (latest : Option (List Nat))
    (proposed : SkipBlockC) (rand : List Nat) :
    Except CErr (ProposedSkipBlockReply × ServiceState) :=
  match latest with
  | none => .ok (proposeGenesisBlock s proposed rand)
  | some [] => .ok (proposeGenesisBlock s proposed rand)
  | some l =>
    match lookupBlock s l with
    | none => .error .notFound
    | some prev =>
      let pr := { proposed with verifierId := prev.verifierId }
      if verifyNewSkipBlock prev pr then
        let r := updateNewSkipBlock s (some (l, prev)) pr rand
        .ok ({ previous := some prev, latest := r.2 }, r.1)
      else .error .verifyFailed

/-- The forward traversal of GetUpdateChain: while the current block has
forward links, follow ForwardLink[0] and look the target up, erroring
when it is missing.  The Go loop has no bound and would not return on a
cyclic map, hence the explicit fuel. -/
def chainFrom (s : ServiceState) : Nat → SkipBlockC → Except CErr (List SkipBlockC)
  | 0, _ => .error .outOfFuel
  | fuel + 1, b =>
    match b.forwardLink.head? with
    | none => .ok [b]
    | some link =>
      match lookupBlock s link.hash with
      | none => .error .missingBlock
      | some b2 => (chainFrom s fuel b2).map (fun bl => b :: bl)

/-- GetUpdateChain of the skipchain service: look the starting block up
and follow the level-zero forward links to the end of the chain. -/
def GetUpdateChain (s : ServiceState) (latest : List Nat) (fuel : Nat) :
    Except CErr (List SkipBlockC) :=
  match lookupBlock s latest with
  | none => .error .notFound
  | some b => chainFrom s fuel b

/-- Follows the claim wording: among the forward links of a block, the one
with the largest level whose signature is verifiable. -/
def highestVerifiableLink (links : List BlockLink) : Option BlockLink :=
  (links.filter (fun l => l.signatureOk)).getLast?

/-- Follows the claim wording: the traversal that at each block follows
the highest verifiable forward link, stopping when none exists. -/
def chainFromSpec (s : ServiceState) : Nat → SkipBlockC → Except CErr (List SkipBlockC)
  | 0, _ => .error .outOfFuel
  | fuel + 1, b =>
    match highestVerifiableLink b.forwardLink with
    | none => .ok [b]
    | some link =>
      match lookupBlock s link.hash with
      | none => .error .missingBlock
      | some b2 => (chainFromSpec s fuel b2).map (fun bl => b :: bl)

/-- Follows the claim wording for GetUpdateChain: the logarithmic
traversal through the highest verifiable forward links. -/
def GetUpdateChainSpec (s : ServiceState) (latest : List Nat) (fuel : Nat) :
    Except CErr (List SkipBlockC) :=
  match lookupBlock s latest with
  | none => .error .notFound
  | some b => chainFromSpec s fuel b

/-- A nonempty block sequence in which every step follows the level-zero
forward link of the previous block through the store and the last block
has no forward link. -/
def isChain (s : ServiceState) : List SkipBlockC → Bool
  | [] => false
  | [b] => b.forwardLink.isEmpty
  | b :: b2 :: rest =>
    match b.forwardLink.head? with
    | none => false
    | some link => lookupBlock s link.hash == some b2 && isChain s (b2 :: rest)

/-- Follows the claim wording for the proposed block height: the largest
h such that the index is divisible by base to the h.  The search bound
idx suffices for base at least two and a positive index. -/
def claimedHeight (base idx : Nat) : Nat :=
  ((List.range (idx + 1)).filter (fun h => idx % base ^ h == 0)).foldr max 0

/-- Follows the claim wording for the skipblock backlink invariant: some
stored block p has hash equal to the first backlink of b, carries b as
the target of its first forward link, and that link has a verifiable
collective signature. -/
def claimBacklinkInv (s : ServiceState) (b : SkipBlockC) : Bool :=
  s.any (fun p =>
    (b.backLink.head? == some (updateHash p.2))
      && ((p.2.forwardLink.head?.map (fun l => l.hash)) == some (updateHash b))
      && ((p.2.forwardLink.head?.map (fun l => l.signatureOk)) == some true))

/-! ### Helper lemmas about the collection model -/

theorem add_ok {c c2 : Coll} {k : CKey} {e : CEntry}
    (h : Collection.Add c k e = .ok c2) :
    keyIn k c = false ∧ c2 = c ++ [(k, e)] := by
  unfold Collection.Add at h
  by_cases hin : keyIn k c
  · simp [hin] at h
  · simp only [Bool.not_eq_true] at hin
    simp [hin] at h
    exact ⟨hin, h.symm⟩

theorem keyIn_append_self (k : CKey) (c : Coll) (e : CEntry) :
    keyIn k (c ++ [(k, e)]) = true := by
  simp [keyIn, List.any_append]

theorem filter_keyIn_false {k : CKey} {c : Coll} (h : keyIn k c = false) :
    c.filter (fun p => !(p.1 == k)) = c := by
  induction c with
  | nil => rfl
  | cons x xs ih =>
    simp only [keyIn, List.any_cons, Bool.or_eq_false_iff] at h
    simp only [List.filter_cons, h.1, Bool.not_false, if_pos]
    rw [ih h.2]

theorem remove_append {k : CKey} {c : Coll} (e : CEntry) (h : keyIn k c = false) :
    Collection.Remove (c ++ [(k, e)]) k = .ok c := by
  unfold Collection.Remove
  rw [keyIn_append_self]
  simp only [if_pos, List.filter_append, filter_keyIn_false h]
  simp

/-- The collection left behind by tryHash is the input collection: every
Add that succeeded is undone by its deferred Remove. -/
theorem tryHash_snd : ∀ (ts : List StateChange) (c : Coll), (tryHash c ts).2 = c
  | [], _ => rfl
  | sc :: rest, c => by
    unfold tryHash
    cases hadd : Collection.Add c sc.instanceID (sc.value, sc.contractID, sc.darcID) with
    | error e => rfl
    | ok c2 =>
      dsimp only
      obtain ⟨hk1, hk2⟩ := add_ok hadd
      have h3 := tryHash_snd rest c2
      rcases htr : tryHash c2 rest with ⟨res, c3⟩
      rw [htr] at h3
      have hc3 : c3 = c2 := h3
      dsimp only
      subst hc3
      rw [hk2, remove_append _ hk1]

/-! ### Claim theorems for the collectionDB -/

/-- C1: tryHash leaves no residue: for every collection state and every
list of state changes, the collection after the call is the collection
before it, hence its entry set and its merkle root are unchanged, whether
the call returned a root or an error. -/
theorem tryHash_no_residue (c : Coll) (ts : List StateChange) :
    (tryHash c ts).2 = c ∧
      Collection.GetRoot (tryHash c ts).2 = Collection.GetRoot c := by
  refine ⟨tryHash_snd ts c, ?_⟩
  rw [tryHash_snd ts c]

def c2cdb : collectionDB := { coll := [], bucket := [] }

def c2sc : StateChange :=
  { stateAction := .Create, instanceID := [1], value := [2],
    contractID := [3], darcID := [4] }

/-- C2: the code does NOT roll the in-memory collection back when the
atomic bolt write fails: storing a create into an empty collectionDB with
the bolt transaction failing returns the error while the in-memory
collection still holds the new entry and the durable bucket does not. -/
theorem store_no_rollback :
    (Store c2cdb c2sc true).1 = some CErr.dbFail
      ∧ (Store c2cdb c2sc true).2.coll = [([1], ([2], [3], [4]))]
      ∧ (Store c2cdb c2sc true).2.coll ≠ c2cdb.coll
      ∧ (Store c2cdb c2sc true).2.bucket = c2cdb.bucket := by
  decide

def c3coll : Coll := [([1], ([2], [3], [4]))]

def c3ts : List StateChange :=
  [{ stateAction := .Update, instanceID := [1], value := [9],
     contractID := [3], darcID := [4] }]

/-- C3 counterexample: an Update state change on an existing key is
individually applicable (storeInColl succeeds on it), yet tryHash errors
on it instead of returning the root of the updated collection, because
tryHash performs an Add for every state change regardless of its
action. -/
theorem tryHash_update_fails :
    (applyAll c3coll c3ts).toOption.isSome = true
      ∧ ((tryHash c3coll c3ts).1).toOption.isSome = false := by
  decide

/-- C3 amended: for state changes that are all creates and apply in order
without error, tryHash returns exactly the root the collection would have
after applying them, and leaves the collection unchanged. -/
theorem tryHash_creates : ∀ (ts : List StateChange) (c c2 : Coll),
    (∀ sc ∈ ts, sc.stateAction = StateAction.Create) →
    applyAll c ts = .ok c2 →
    tryHash c ts = (.ok (Collection.GetRoot c2), c)
  | [], c, c2, _, happ => by
    simp only [applyAll] at happ
    cases happ
    rfl
  | sc :: rest, c, c2, hact, happ => by
    have hsc : sc.stateAction = StateAction.Create := hact sc (List.mem_cons_self sc rest)
    simp only [applyAll, storeInColl, hsc] at happ
    cases hadd : Collection.Add c sc.instanceID (sc.value, sc.contractID, sc.darcID) with
    | error e => rw [hadd] at happ; exact absurd happ (by simp)
    | ok cmid =>
      rw [hadd] at happ
      dsimp only at happ
      obtain ⟨hk1, hk2⟩ := add_ok hadd
      have hrest := tryHash_creates rest cmid c2
        (fun x hx => hact x (List.mem_cons_of_mem sc hx)) happ
      unfold tryHash
      rw [hadd]
      dsimp only
      rw [hrest]
      dsimp only
      rw [hk2, remove_append _ hk1]

def c3wcoll : Coll := [([5], ([6], [7], [8]))]

def c3wts : List StateChange :=
  [{ stateAction := .Create, instanceID := [1], value := [2], contractID := [3], darcID := [4] },
   { stateAction := .Create, instanceID := [2], value := [2], contractID := [3], darcID := [4] }]

def c3wres : Coll :=
  [([5], ([6], [7], [8])), ([1], ([2], [3], [4])), ([2], ([2], [3], [4]))]

/-- Witness for the amended C3 theorem at a concrete input. -/
theorem tryHash_creates_witness :
    (∀ sc ∈ c3wts, sc.stateAction = StateAction.Create)
      ∧ applyAll c3wcoll c3wts = .ok c3wres
      ∧ tryHash c3wcoll c3wts = (.ok (Collection.GetRoot c3wres), c3wcoll) :=
  ⟨by decide, by rfl, tryHash_creates c3wts c3wcoll c3wres (by decide) (by rfl)⟩

/-! ### The transaction executor -/

/-- A transaction containing an instruction whose registered contract is
the panicking one is rejected whatever the snapshot is: the traversal
either fails before that instruction or reaches it and catches the
panic. -/
theorem executeTx_panics (reg : ContractRegistry) :
    ∀ (tx : Tx) (c : Coll),
      (∃ i ∈ tx, regLookup reg i.contractID = some panicContractFunc) →
      executeTx reg c tx = none
  | [], _, h => by simp at h
  | inst :: rest, c, h => by
    unfold executeTx
    rcases h with ⟨i, hi, hlook⟩
    rcases List.mem_cons.mp hi with heq | hmem
    · subst heq
      rw [hlook]
      rfl
    · cases hl : regLookup reg inst.contractID with
      | none => rfl
      | some f =>
        dsimp only
        cases hf : f c inst with
        | panics => rfl
        | err => rfl
        | ok scs =>
          dsimp only
          cases ha : applyAll c scs with
          | error e => rfl
          | ok c2 =>
            dsimp only
            exact executeTx_panics reg rest c2 ⟨i, hmem, hlook⟩

/-- Step equation of the batch fold when the head transaction is
rejected. -/
theorem createStateChanges_cons_none {reg : ContractRegistry} {c : Coll} {tx : Tx}
    (rest : List Tx) (h : executeTx reg c tx = none) :
    createStateChanges reg c (tx :: rest) =
      ((createStateChanges reg c rest).1, false :: (createStateChanges reg c rest).2) := by
  simp only [createStateChanges]
  rw [h]

/-- Step equation of the batch fold when the head transaction is
accepted. -/
theorem createStateChanges_cons_some {reg : ContractRegistry} {c c2 : Coll} {tx : Tx}
    (rest : List Tx) (h : executeTx reg c tx = some c2) :
    createStateChanges reg c (tx :: rest) =
      ((createStateChanges reg c2 rest).1, true :: (createStateChanges reg c2 rest).2) := by
  simp only [createStateChanges]
  rw [h]

/-- Splitting a batch: the executor threads the snapshot through the
first part and the acceptance flags concatenate. -/
theorem createStateChanges_append (reg : ContractRegistry) :
    ∀ (xs : List Tx) (c : Coll) (ys : List Tx),
      createStateChanges reg c (xs ++ ys) =
        ((createStateChanges reg (createStateChanges reg c xs).1 ys).1,
         (createStateChanges reg c xs).2
           ++ (createStateChanges reg (createStateChanges reg c xs).1 ys).2)
  | [], c, ys => by simp [createStateChanges]
  | tx :: xs, c, ys => by
    cases he : executeTx reg c tx with
    | none =>
      rw [show tx :: xs ++ ys = tx :: (xs ++ ys) from rfl,
        createStateChanges_cons_none (xs ++ ys) he,
        createStateChanges_cons_none xs he,
        createStateChanges_append reg xs c ys]
      simp
    | some c2 =>
      rw [show tx :: xs ++ ys = tx :: (xs ++ ys) from rfl,
        createStateChanges_cons_some (xs ++ ys) he,
        createStateChanges_cons_some xs he,
        createStateChanges_append reg xs c2 ys]
      simp

/-- C4: executing a batch that contains a transaction whose contract
panics rejects only that transaction: the final snapshot equals the one
of the batch without it (so every other transaction is applied normally
and no instance of the offending transaction reaches the state: every
key held after the full batch is held after the batch without it), the
offending transaction is flagged rejected at its position, and the
executor returns normally (it is a total function; the panic is caught
and never escapes). -/
theorem createStateChanges_panic_contained (reg : ContractRegistry) (c : Coll)
    (pre post : List Tx) (tx : Tx)
    (h : ∃ i ∈ tx, regLookup reg i.contractID = some panicContractFunc) :
    (createStateChanges reg c (pre ++ tx :: post)).1
        = (createStateChanges reg c (pre ++ post)).1
      ∧ (createStateChanges reg c (pre ++ tx :: post)).2
        = (createStateChanges reg c pre).2
            ++ false :: (createStateChanges reg (createStateChanges reg c pre).1 post).2
      ∧ (∀ k : CKey, keyIn k (createStateChanges reg c (pre ++ tx :: post)).1
            = keyIn k (createStateChanges reg c (pre ++ post)).1) := by
  have hmid := createStateChanges_append reg pre c (tx :: post)
  have hmid2 := createStateChanges_append reg pre c post
  have hrej : executeTx reg (createStateChanges reg c pre).1 tx = none :=
    executeTx_panics reg tx (createStateChanges reg c pre).1 h
  have hstep : createStateChanges reg (createStateChanges reg c pre).1 (tx :: post)
      = ((createStateChanges reg (createStateChanges reg c pre).1 post).1,
         false :: (createStateChanges reg (createStateChanges reg c pre).1 post).2) :=
    createStateChanges_cons_none post hrej
  refine ⟨?_, ?_, ?_⟩
  · rw [hmid, hmid2, hstep]
  · rw [hmid, hstep]
  · intro k
    rw [hmid, hmid2, hstep]

def c4reg : ContractRegistry := [([1], dummyContractFunc), ([2], panicContractFunc)]

def c4pre : List Tx := [[{ instanceID := [10], contractID := [1], value := [42] }]]

def c4tx : Tx := [{ instanceID := [11], contractID := [2], value := [43] }]

def c4post : List Tx := [[{ instanceID := [12], contractID := [1], value := [44] }]]

/-- Witness for the panic containment theorem at a concrete batch. -/
theorem createStateChanges_panic_contained_witness :
    (∃ i ∈ c4tx, regLookup c4reg i.contractID = some panicContractFunc)
      ∧ ((createStateChanges c4reg [] (c4pre ++ c4tx :: c4post)).1
           = (createStateChanges c4reg [] (c4pre ++ c4post)).1
        ∧ (createStateChanges c4reg [] (c4pre ++ c4tx :: c4post)).2
           = (createStateChanges c4reg [] c4pre).2
               ++ false :: (createStateChanges c4reg (createStateChanges c4reg [] c4pre).1 c4post).2
        ∧ (∀ k : CKey, keyIn k (createStateChanges c4reg [] (c4pre ++ c4tx :: c4post)).1
              = keyIn k (createStateChanges c4reg [] (c4pre ++ c4post)).1)) :=
  ⟨⟨{ instanceID := [11], contractID := [2], value := [43] }, by decide, rfl⟩,
   createStateChanges_panic_contained c4reg [] c4pre c4post c4tx
     ⟨{ instanceID := [11], contractID := [2], value := [43] }, by decide, rfl⟩⟩

/-! ### The darc engine -/

/-- C9: a proposed darc evolution is accepted exactly when the version
increments by one, the previous hash chains to the stored darc, the base
id is unchanged, and the verified signers satisfy the evolve rule of the
stored darc; a proposal with any other version number leaves the stored
darc unchanged. -/
theorem darc_evolution_rule (old new : Darc) (signers : List Nat) :
    (darcEvolveOk old new signers = true ↔
      (new.version = old.version + 1 ∧ new.prevHash = darcHash old
        ∧ new.baseId = old.baseId ∧ evalExpr signers old.evolveRule = true))
      ∧ (new.version ≠ old.version + 1 → darcEvolve old new signers = old) := by
  constructor
  · unfold darcEvolveOk
    simp [Bool.and_eq_true, and_assoc]
  · intro hv
    unfold darcEvolve darcEvolveOk
    have : (new.version == old.version + 1) = false := by
      simpa using hv
    rw [this]
    simp

def c9old : Darc :=
  { version := 0, baseId := [1], prevHash := [], evolveRule := .sid 5, payload := [2] }

def c9new : Darc :=
  { version := 11, baseId := [1], prevHash := darcHash c9old,
    evolveRule := .sid 5, payload := [3] }

/-- Witness for the darc evolution theorem, mirroring the failing
evolution of the test TestService_DarcEvolutionFail: version 11 instead
of 1, so the stored darc stays the genesis darc. -/
theorem darc_evolution_rule_witness :
    (c9new.version ≠ c9old.version + 1) ∧ darcEvolve c9old c9new [5] = c9old :=
  ⟨by decide, (darc_evolution_rule c9old c9new [5]).2 (by decide)⟩

/-! ### Skipchain map lemmas -/

theorem lookupBlock_mapInsert_self : ∀ (s : ServiceState) (k : List Nat) (b : SkipBlockC),
    lookupBlock (mapInsert s k b) k = some b
  | [], k, b => by simp [mapInsert, lookupBlock]
  | (k2, b2) :: rest, k, b => by
    unfold mapInsert
    by_cases h : k2 = k
    · simp [h, lookupBlock]
    · simp only [h, if_false, lookupBlock, if_neg h]
      exact lookupBlock_mapInsert_self rest k b

theorem lookupBlock_mapInsert_ne : ∀ (s : ServiceState) (k k2 : List Nat) (b : SkipBlockC),
    k2 ≠ k → lookupBlock (mapInsert s k b) k2 = lookupBlock s k2
  | [], k, k2, b, h => by
    have hne : ¬ k = k2 := fun hh => h hh.symm
    simp [mapInsert, lookupBlock, hne]
  | (k3, b3) :: rest, k, k2, b, h => by
    unfold mapInsert
    by_cases h3 : k3 = k
    · subst h3
      have hne : ¬ k3 = k2 := fun hh => h hh.symm
      simp [lookupBlock, hne]
    · by_cases h32 : k3 = k2
      · simp [lookupBlock, h3, h32, h]
      · simp only [if_neg h3, lookupBlock, if_neg h32]
        exact lookupBlock_mapInsert_ne rest k k2 b h

/-! ### GetUpdateChain -/

/-- Whenever the traversal of GetUpdateChain returns a block list, the
list starts at the given block and is a level-zero chain through the
store ending at a block without forward links. -/
theorem chainFrom_ok (s : ServiceState) :
    ∀ (fuel : Nat) (b : SkipBlockC) (blocks : List SkipBlockC),
      chainFrom s fuel b = .ok blocks →
      blocks.head? = some b ∧ isChain s blocks = true
  | 0, b, blocks, h => by simp [chainFrom] at h
  | fuel + 1, b, blocks, h => by
    unfold chainFrom at h
    cases hfl : b.forwardLink.head? with
    | none =>
      rw [hfl] at h
      dsimp only at h
      cases h
      refine ⟨rfl, ?_⟩
      have : b.forwardLink.isEmpty = true := by
        cases hbf : b.forwardLink with
        | nil => rfl
        | cons x xs => rw [hbf] at hfl; cases hfl
      simp [isChain, this]
    | some link =>
      rw [hfl] at h
      dsimp only at h
      cases hlb : lookupBlock s link.hash with
      | none => rw [hlb] at h; cases h
      | some b2 =>
        rw [hlb] at h
        dsimp only at h
        cases hcf : chainFrom s fuel b2 with
        | error e => rw [hcf] at h; simp [Except.map] at h
        | ok bl =>
          rw [hcf] at h
          simp only [Except.map] at h
          cases h
          obtain ⟨hh, hch⟩ := chainFrom_ok s fuel b2 bl hcf
          refine ⟨rfl, ?_⟩
          cases bl with
          | nil => cases hh
          | cons b3 tl =>
            have hb3 : b3 = b2 := by
              simpa using hh
            subst hb3
            simp [isChain, hfl, hlb, hch]

/-- C5 amended: GetUpdateChain follows the level-zero forward link at
every step, without looking at higher links or signatures: any returned
sequence starts at the named block and is the full level-zero chain up to
the first block without forward links. -/
theorem getUpdateChain_level0 (s : ServiceState) (latest : List Nat) (fuel : Nat)
    (blocks : List SkipBlockC) (h : GetUpdateChain s latest fuel = .ok blocks) :
    blocks.head? = lookupBlock s latest ∧ isChain s blocks = true := by
  unfold GetUpdateChain at h
  cases hlb : lookupBlock s latest with
  | none => rw [hlb] at h; cases h
  | some b =>
    rw [hlb] at h
    dsimp only at h
    obtain ⟨h1, h2⟩ := chainFrom_ok s fuel b blocks h
    exact ⟨h1, h2⟩

def c5wA : SkipBlockC :=
  { index := 1, height := 1, verifierId := 0, backLink := [[7]],
    forwardLink := [{ hash := [2], signatureOk := false }], data := [] }

def c5wB : SkipBlockC :=
  { index := 2, height := 1, verifierId := 0, backLink := [[1]],
    forwardLink := [], data := [] }

def c5wS : ServiceState := [([1], c5wA), ([2], c5wB)]

/-- Witness for the GetUpdateChain characterisation at a concrete
two-block store. -/
theorem getUpdateChain_level0_witness :
    GetUpdateChain c5wS [1] 5 = .ok [c5wA, c5wB]
      ∧ ([c5wA, c5wB].head? = lookupBlock c5wS [1]
          ∧ isChain c5wS [c5wA, c5wB] = true) :=
  ⟨by rfl, getUpdateChain_level0 c5wS [1] 5 [c5wA, c5wB] (by rfl)⟩

def r32 : List Nat := List.replicate 32 7

def skdemoBlock (d : Nat) : SkipBlockC :=
  { index := 0, height := 0, verifierId := 0, backLink := [], forwardLink := [], data := [d] }

/-- A reachable two-block chain: a genesis block and one successor
proposed on it, together with the id of the genesis block. -/
def c5demo : Except CErr (ServiceState × List Nat) := do
  let r1 ← ProposeSkipBlock [] none (skdemoBlock 10) r32
  let hG := updateHash r1.1.latest
  let r2 ← ProposeSkipBlock r1.2 (some hG) (skdemoBlock 11) r32
  pure (r2.2, hG)

/-- C5 counterexample: on the reachable two-block chain, GetUpdateChain
returns both blocks although no forward link carries a verifiable
signature, while the traversal the claim describes (highest forward link
with a verifiable signature at each step) stops at the named block; the
code result differs from the claimed one already in length. -/
theorem getUpdateChain_not_highest :
    (c5demo.toOption.map (fun p =>
        ((GetUpdateChain p.1 p.2 10).toOption.map List.length,
         (GetUpdateChainSpec p.1 p.2 10).toOption.map List.length)))
      = some (some 2, some 1)
      ∧ (2 : Nat) ≠ 1 :=
  ⟨by rfl, by decide⟩

/-! ### ProposeSkipBlock -/

/-- The block stored by a successful non-genesis propose, written out for
the statements below: verifier id copied from the previous block, height
one, index of the previous block plus one, and the single backlink to the
hash of the previous block. -/
def proposedBlock (prev proposed : SkipBlockC) : SkipBlockC :=
  { proposed with
    verifierId := prev.verifierId
    height := 1
    index := prev.index + 1
    backLink := [updateHash prev] }

/-- The store after a successful non-genesis propose, written out for the
statements below: the previous block (under its old key) gets its forward
link overwritten with the single unsigned link to the new block, and the
new block is stored under its hash. -/
def proposeResultState (s : ServiceState) (l : List Nat) (prev proposed : SkipBlockC) :
    ServiceState :=
  mapInsert
    (mapInsert s l
      { prev with forwardLink := [NewBlockLink (updateHash (proposedBlock prev proposed))] })
    (updateHash (proposedBlock prev proposed)) (proposedBlock prev proposed)

/-- A successful non-genesis ProposeSkipBlock call returns the proposed
block with the fields rewritten by updateNewSkipBlock and the updated
store. -/
theorem proposeSkipBlock_step (s : ServiceState) (a : Nat) (l0 : List Nat)
    (proposed : SkipBlockC) (rand : List Nat) (prev : SkipBlockC)
    (hprev : lookupBlock s (a :: l0) = some prev)
    (hver : prev.verifierId = VerifyNone) :
    ProposeSkipBlock s (some (a :: l0)) proposed rand
      = .ok ({ previous := some prev, latest := proposedBlock prev proposed },
             proposeResultState s (a :: l0) prev proposed) := by
  unfold ProposeSkipBlock
  dsimp only
  rw [hprev]
  dsimp only
  have hv : verifyNewSkipBlock prev { proposed with verifierId := prev.verifierId } = true := by
    simp [verifyNewSkipBlock, hver]
  simp only [hv, if_true]
  rfl

/-- C6 amended: for every successful non-genesis propose, the height of
the new block is one (not the largest power-of-base divisor of the
index), and its backlinks are the single entry holding the hash of the
previous block. -/
theorem proposeSkipBlock_height_one (s : ServiceState) (a : Nat) (l0 : List Nat)
    (proposed : SkipBlockC) (rand : List Nat) (prev : SkipBlockC)
    (hprev : lookupBlock s (a :: l0) = some prev)
    (hver : prev.verifierId = VerifyNone) :
    ∃ s2 nb, ProposeSkipBlock s (some (a :: l0)) proposed rand
        = .ok ({ previous := some prev, latest := nb }, s2)
      ∧ nb.height = 1
      ∧ nb.index = prev.index + 1
      ∧ nb.backLink = [updateHash prev] := by
  refine ⟨proposeResultState s (a :: l0) prev proposed, proposedBlock prev proposed,
    proposeSkipBlock_step s a l0 proposed rand prev hprev hver, ?_, ?_, ?_⟩ <;> rfl

def c6wPrev : SkipBlockC :=
  { index := 3, height := 1, verifierId := 0, backLink := [[0]],
    forwardLink := [], data := [] }

def c6wS : ServiceState := [([9], c6wPrev)]

/-- Witness for the amended C6 theorem at a concrete store. -/
theorem proposeSkipBlock_height_one_witness :
    lookupBlock c6wS [9] = some c6wPrev
      ∧ c6wPrev.verifierId = VerifyNone
      ∧ (∃ s2 nb, ProposeSkipBlock c6wS (some [9]) (skdemoBlock 20) r32
            = .ok ({ previous := some c6wPrev, latest := nb }, s2)
          ∧ nb.height = 1 ∧ nb.index = c6wPrev.index + 1
          ∧ nb.backLink = [updateHash c6wPrev]) :=
  ⟨rfl, rfl, proposeSkipBlock_height_one c6wS 9 [] (skdemoBlock 20) r32 c6wPrev rfl rfl⟩

/-- A reachable four-block chain (genesis and three successors), ending
with the reply for the block of index four. -/
def c6demo : Except CErr ProposedSkipBlockReply := do
  let r1 ← ProposeSkipBlock [] none (skdemoBlock 10) r32
  let r2 ← ProposeSkipBlock r1.2 (some (updateHash r1.1.latest)) (skdemoBlock 11) r32
  let r3 ← ProposeSkipBlock r2.2 (some (updateHash r2.1.latest)) (skdemoBlock 12) r32
  let r4 ← ProposeSkipBlock r3.2 (some (updateHash r3.1.latest)) (skdemoBlock 13) r32
  pure r4.1

/-- C6 counterexample: the reachable block of index four gets height one
from the code, while the claimed height (the largest h with base to the
h dividing the index, base two) is two. -/
theorem proposeSkipBlock_height_not_claimed :
    (c6demo.toOption.map (fun r => (r.latest.index, r.latest.height)))
      = some (4, 1)
      ∧ claimedHeight 2 4 = 2
      ∧ (1 : Nat) ≠ 2 :=
  ⟨by rfl, by decide, by decide⟩

/-- C7 amended: a genesis creation (nil or empty latest id) succeeds and
returns a block of height one whose single backlink is the randomly
generated 32-byte value, but whose index is the index of the proposed
block plus one (one for a fresh proposal), not zero: the genesis path of
updateNewSkipBlock increments the index. -/
theorem proposeSkipBlock_genesis_fields (s : ServiceState) (latest : Option (List Nat))
    (proposed : SkipBlockC) (rand : List Nat)
    (h : latest = none ∨ latest = some []) :
    ∃ s2, ProposeSkipBlock s latest proposed rand =
      .ok ({ previous := none,
             latest := { proposed with
                         verifierId := VerifyNone
                         height := 1
                         index := proposed.index + 1
                         backLink := [rand] } }, s2) := by
  rcases h with h | h <;> subst h <;> exact ⟨_, rfl⟩

/-- Witness for the amended C7 theorem at a concrete input. -/
theorem proposeSkipBlock_genesis_fields_witness :
    ((none : Option (List Nat)) = none ∨ (none : Option (List Nat)) = some [])
      ∧ ∃ s2, ProposeSkipBlock [] none (skdemoBlock 10) r32 =
          .ok ({ previous := none,
                 latest := { skdemoBlock 10 with
                             verifierId := VerifyNone
                             height := 1
                             index := (skdemoBlock 10).index + 1
                             backLink := [r32] } }, s2) :=
  ⟨Or.inl rfl, proposeSkipBlock_genesis_fields [] none (skdemoBlock 10) r32 (Or.inl rfl)⟩

/-- C7 counterexample: creating a genesis block from a proposed block of
index zero stores and returns a block of index one, not zero. -/
theorem proposeSkipBlock_genesis_index_one :
    ((ProposeSkipBlock [] none (skdemoBlock 10) r32).toOption.map
        (fun r => r.1.latest.index)) = some 1
      ∧ (1 : Nat) ≠ 0 :=
  ⟨by rfl, by decide⟩

/-- C8 amended: immediately after a successful non-genesis propose, the
new block b satisfies b.backlinks[0] = hash(p) for the stored previous
block p, and the updated p carries b as the target of its only forward
link; that link carries no collective signature (the sign-off is a TODO
in the source), and a later propose on the same previous block overwrites
the link, so the relation is only guaranteed for the newest successor. -/
theorem proposeSkipBlock_links (s : ServiceState) (a : Nat) (l0 : List Nat)
    (proposed : SkipBlockC) (rand : List Nat) (prev : SkipBlockC)
    (hprev : lookupBlock s (a :: l0) = some prev)
    (hver : prev.verifierId = VerifyNone) :
    ∃ nb s2,
      ProposeSkipBlock s (some (a :: l0)) proposed rand
          = .ok ({ previous := some prev, latest := nb }, s2)
        ∧ nb.backLink = [updateHash prev]
        ∧ lookupBlock s2 (updateHash nb) = some nb
        ∧ (NewBlockLink (updateHash nb)).signatureOk = false
        ∧ (updateHash nb ≠ a :: l0 →
            lookupBlock s2 (a :: l0)
              = some { prev with forwardLink := [NewBlockLink (updateHash nb)] }) := by
  refine ⟨proposedBlock prev proposed, proposeResultState s (a :: l0) prev proposed,
    proposeSkipBlock_step s a l0 proposed rand prev hprev hver, by rfl, ?_, by rfl, ?_⟩
  · exact lookupBlock_mapInsert_self _ _ _
  · intro hne
    unfold proposeResultState
    rw [lookupBlock_mapInsert_ne _ _ _ _ (fun hh => hne hh.symm)]
    exact lookupBlock_mapInsert_self _ _ _

/-- Witness for the amended C8 theorem at a concrete store. -/
theorem proposeSkipBlock_links_witness :
    lookupBlock c6wS [9] = some c6wPrev
      ∧ c6wPrev.verifierId = VerifyNone
      ∧ (∃ nb s2,
          ProposeSkipBlock c6wS (some [9]) (skdemoBlock 21) r32
              = .ok ({ previous := some c6wPrev, latest := nb }, s2)
            ∧ nb.backLink = [updateHash c6wPrev]
            ∧ lookupBlock s2 (updateHash nb) = some nb
            ∧ (NewBlockLink (updateHash nb)).signatureOk = false
            ∧ (updateHash nb ≠ [9] →
                lookupBlock s2 [9]
                  = some { c6wPrev with forwardLink := [NewBlockLink (updateHash nb)] })) :=
  ⟨rfl, rfl, proposeSkipBlock_links c6wS 9 [] (skdemoBlock 21) r32 c6wPrev rfl rfl⟩

/-- A reachable three-block store: a genesis block G and two successors
both proposed on G, the second overwriting the forward link of G; paired
with the first successor. -/
def c8demo : Except CErr (ServiceState × SkipBlockC) := do
  let r1 ← ProposeSkipBlock [] none (skdemoBlock 10) r32
  let hG := updateHash r1.1.latest
  let r2 ← ProposeSkipBlock r1.2 (some hG) (skdemoBlock 11) r32
  let r3 ← ProposeSkipBlock r2.2 (some hG) (skdemoBlock 12) r32
  pure (r3.2, r2.1.latest)

/-- C8 counterexample: in the reachable store of c8demo the first
successor b1 is a stored non-genesis block, yet no stored block p
satisfies the claimed invariant for it: the genesis block holds the
backlink hash of b1 but its only forward link now targets the second
successor, and no forward link ever carries a collective signature. -/
theorem skipblock_backlink_inv_fails :
    (c8demo.toOption.map (fun p => claimBacklinkInv p.1 p.2)) = some false
      ∧ (c8demo.toOption.map (fun p => (p.1.map Prod.snd).contains p.2)) = some true :=
  ⟨by rfl, by rfl⟩

/-- C10: calling ProposeSkipBlock with a nil or empty latest id succeeds
unconditionally (even when the service already stores blocks, despite the
doc comment of the Go function): the proposed block gets verifier id
VerifyNone, is stored under its hash as a genesis block, and the reply
carries previous = none. -/
theorem proposeSkipBlock_nil_latest (s : ServiceState) (latest : Option (List Nat))
    (proposed : SkipBlockC) (rand : List Nat)
    (h : latest = none ∨ latest = some []) :
    ProposeSkipBlock s latest proposed rand = .ok (proposeGenesisBlock s proposed rand)
      ∧ (proposeGenesisBlock s proposed rand).1.previous = none
      ∧ (proposeGenesisBlock s proposed rand).1.latest.verifierId = VerifyNone
      ∧ lookupBlock (proposeGenesisBlock s proposed rand).2
          (updateHash (proposeGenesisBlock s proposed rand).1.latest)
          = some (proposeGenesisBlock s proposed rand).1.latest := by
  have hmain : ProposeSkipBlock s latest proposed rand
      = .ok (proposeGenesisBlock s proposed rand) := by
    rcases h with h | h <;> subst h <;> rfl
  refine ⟨hmain, rfl, rfl, ?_⟩
  dsimp only [proposeGenesisBlock, updateNewSkipBlock]
  exact lookupBlock_mapInsert_self _ _ _

def c10wS : ServiceState := [([3], skdemoBlock 30)]

/-- Witness for the C10 theorem: the genesis branch taken on a service
that already stores a block. -/
theorem proposeSkipBlock_nil_latest_witness :
    ((none : Option (List Nat)) = none ∨ (none : Option (List Nat)) = some [])
      ∧ (ProposeSkipBlock c10wS none (skdemoBlock 31) r32
           = .ok (proposeGenesisBlock c10wS (skdemoBlock 31) r32)
        ∧ (proposeGenesisBlock c10wS (skdemoBlock 31) r32).1.previous = none
        ∧ (proposeGenesisBlock c10wS (skdemoBlock 31) r32).1.latest.verifierId = VerifyNone
        ∧ lookupBlock (proposeGenesisBlock c10wS (skdemoBlock 31) r32).2
            (updateHash (proposeGenesisBlock c10wS (skdemoBlock 31) r32).1.latest)
            = some (proposeGenesisBlock c10wS (skdemoBlock 31) r32).1.latest) :=
  ⟨Or.inl rfl, proposeSkipBlock_nil_latest c10wS none (skdemoBlock 31) r32 (Or.inl rfl)⟩
